import Mathlib

/-!
Verification of the DexWallet multi-chain wallet server.

The repository is a Node/Express backend with one router per chain:
a Bitcoin router backed by the Blockstream API (`btc-server.mjs`), a second
Bitcoin router backed by the Tatum API, a Solana router (`solana_server.mjs`),
two Cardano routers (`cardano-server.mjs`), and an EVM router (ethers.js).
This file shallowly embeds the wallet logic of those routers: decimal-to-base-unit
conversion, greedy UTXO selection, fee estimation, key decoding, derivation,
and the send route handlers.  External collaborators (the HTTP layer, the
network clients and the cryptographic libraries) are modelled as oracle
functions bundled in `Env` structures; provider responses are bundled in
`World` structures; each route handler is a pure function from request fields,
`Env` and `World` to a result together with the ordered list of external
events (provider calls, key derivation) it performs.

JavaScript `Number` values are embedded as exact rationals; base-unit
amounts are embedded as integers.  Absent JSON request fields are embedded
as the falsy values of their type (empty string, zero), matching the
truthiness checks of the handlers.
-/

namespace DexWallet

/-- External events a route handler can perform, in source order: provider
calls of each router, plus Cardano key derivation (tracked because one claim
is about work done before derivation). -/
inductive Event where
  | btcFetchUtxos (address : String)
  | btcFetchFeeRate
  | btcBroadcast
  | solSendAndConfirm
  | tatumBitcoinTransaction (fromAddress privateKey toAddress : String) (amount : ℚ)
  | cardanoDeriveKeys
  | cardanoFetchUtxos (address : String)
  | cardanoSubmit
  | evmGetBalance (address : String)
  | evmGetFeeData
  | evmEstimateGas
  | evmSendTransaction (toAddress : String) (valueWei : Int)
deriving Repr, DecidableEq

/-! ### Generic accumulate-until-target selection

Both Bitcoin routers and both Cardano routers run the same loop shape:
walk a list, read a value off each element (skipping elements without one),
append the element to the chosen list, add its value to a running total, and
stop as soon as the total reaches the target.  `Greedy.chosen` computes the
list of elements such a loop picks, starting from running total `acc`. -/

namespace Greedy

variable {α : Type}

/-- Elements picked by the accumulate-until-target loop over `l`, starting
from running total `acc`; elements whose value is `none` are skipped. -/
def chosen (val : α → Option Int) (target : Int) : Int → List α → List α
  | _, [] => []
  | acc, u :: rest =>
    match val u with
    | none => chosen val target acc rest
    | some v => u :: (if target ≤ acc + v then [] else chosen val target (acc + v) rest)

/-- Sum of the values of a list, counting valueless elements as zero. -/
def sumVal (val : α → Option Int) (l : List α) : Int :=
  (l.map fun u => (val u).getD 0).sum

end Greedy

/-- JavaScript `s.startsWith(pre)`, embedded as a character-list prefix
test (kernel-computable, unlike the byte-iterator version). -/
def strStartsWith (s pre : String) : Bool := pre.data.isPrefixOf s.data

/-! ### Bitcoin router backed by the Blockstream API (`btc-server.mjs`) -/

namespace Btc

/-- A UTXO as returned by the Blockstream API and consumed by the send route:
`{ txid, vout, value }` with `value` in satoshis. -/
structure Utxo where
  txid : String
  vout : Nat
  value : Int
deriving Repr, DecidableEq

/-- `const satsToBtc = (sats) => Number(sats) / 1e8`. -/
def satsToBtc (sats : Int) : ℚ := (sats : ℚ) / 100000000

/-- `const btcToSats = (btc) => Math.floor(Number(btc) * 1e8)` (identical in
`btc-server.mjs` and in the Tatum Bitcoin router). -/
def btcToSats (btc : ℚ) : Int := ⌊btc * 100000000⌋

def VBYTE_PER_INPUT : Nat := 68
def VBYTE_PER_OUTPUT : Nat := 31
def TX_OVERHEAD_VBYTES : Nat := 10

/-- `estimateTxVsize(inputs, outputs)` from `btc-server.mjs`. -/
def estimateTxVsize (inputs outputs : Nat) : Nat :=
  inputs * VBYTE_PER_INPUT + outputs * VBYTE_PER_OUTPUT + TX_OVERHEAD_VBYTES

/-- `Math.ceil(vsize * rate)`: the fee computation of the send route. -/
def ceilFee (vsize : Nat) (rate : ℚ) : Int := ⌈(vsize : ℚ) * rate⌉

/-- Ordering used by `[...utxos].sort((a, b) => a.value - b.value)`. -/
def valueLe (a b : Utxo) : Prop := a.value ≤ b.value

instance : DecidableRel valueLe :=
  fun a b => inferInstanceAs (Decidable (a.value ≤ b.value))

instance : IsTotal Utxo valueLe := ⟨fun a b => le_total a.value b.value⟩

instance : IsTrans Utxo valueLe := ⟨fun _ _ _ h₁ h₂ => le_trans h₁ h₂⟩

/-- `[...utxos].sort((a, b) => a.value - b.value)`: a stable ascending sort
by value, embedded as insertion sort. -/
def sortByValue (utxos : List Utxo) : List Utxo := List.insertionSort valueLe utxos

/-- The `for (const u of sorted) { chosen.push(u); sum += u.value; if (sum >= target) break; }`
loop of `selectUtxosGreedy`. -/
def greedyLoop (target : Int) : List Utxo → List Utxo → Int → List Utxo × Int
  | [], chosen, s => (chosen, s)
  | u :: rest, chosen, s =>
    let s' := s + u.value
    let chosen' := chosen ++ [u]
    if target ≤ s' then (chosen', s') else greedyLoop target rest chosen' s'

/-- `selectUtxosGreedy(utxos, target)` from `btc-server.mjs` (the identical
function also appears in the Tatum Bitcoin router). -/
def selectUtxosGreedy (utxos : List Utxo) (target : Int) : List Utxo × Int :=
  greedyLoop target (sortByValue utxos) [] 0

/-- Value function feeding the generic selection lemmas. -/
def utxoVal (u : Utxo) : Option Int := some u.value

/-- Sum of the satoshi values of a list of UTXOs. -/
def sumValues (l : List Utxo) : Int := (l.map (·.value)).sum

/-- Sum of the satoshi values of a transaction output list. -/
def outputsSum (l : List (String × Int)) : Int := (l.map (·.2)).sum

/-- Successful response of the Blockstream send route, carrying the shape of
the transaction it signed and broadcast: inputs, outputs as
(address, value-in-sats) pairs in the order they were added, fee and amount. -/
structure SendOk where
  inputs : List Utxo
  outputs : List (String × Int)
  fee : Int
  amountSats : Int
deriving Repr, DecidableEq

/-- External collaborators of the Bitcoin send route:
`bitcoin.ECPair.fromWIF` followed by `bitcoin.payments.p2wpkh(...).address`
(`none` models a thrown decoding error). -/
structure Env where
  wifToAddress : String → Option String

/-- Blockstream provider responses for one request. -/
structure World where
  utxos : List Utxo
  feeRate : ℚ

/-- The `POST /:from/send` handler of `btc-server.mjs` (lines 246-327):
required-field check, WIF decoding, signer check, UTXO fetch, fee rate,
greedy selection with target `amountSats + 1000`, fee over
`estimateTxVsize(chosen.length, 2)`, funds check, the two outputs
(destination, then change back to the sender), signing and broadcast. -/
def send (env : Env) (w : World) (fromParam privateKeyWIF toAddr : String)
    (amount : ℚ) (feeRate : Option ℚ) : Except String SendOk × List Event :=
  if privateKeyWIF = "" ∨ toAddr = "" ∨ amount = 0 then
    (.error "privateKeyWIF, to, amount required", [])
  else
    match env.wifToAddress privateKeyWIF with
    | none => (.error "Invalid WIF", [])
    | some fromAddress =>
      if fromAddress ≠ fromParam then (.error "privateKey mismatch", [])
      else
        let ev₁ : List Event := [.btcFetchUtxos fromAddress]
        if w.utxos.length = 0 then (.error "no utxos available", ev₁)
        else
          let rateFetch : ℚ × List Event :=
            match feeRate with
            | some r => if r = 0 then (w.feeRate, ev₁ ++ [.btcFetchFeeRate]) else (r, ev₁)
            | none => (w.feeRate, ev₁ ++ [.btcFetchFeeRate])
          let rate := rateFetch.1
          let ev₂ := rateFetch.2
          let amountSats := btcToSats amount
          let sel := selectUtxosGreedy w.utxos (amountSats + 1000)
          let fee := ceilFee (estimateTxVsize sel.1.length 2) rate
          if sel.2 < amountSats + fee then (.error "insufficient funds", ev₂)
          else
            (.ok ⟨sel.1,
                  [(toAddr, amountSats), (fromAddress, sel.2 - amountSats - fee)],
                  fee, amountSats⟩,
             ev₂ ++ [.btcBroadcast])

/-- A BIP32 node as the route sees it: public key bytes and WIF encoding. -/
structure Node where
  publicKey : List Nat
  wif : String
deriving Repr, DecidableEq

/-- External cryptographic primitives used by wallet creation and import:
bip39 validation and seed derivation, the bip32 path walk, p2wpkh address
encoding, and the entropy-driven mnemonic generator. -/
structure DeriveEnv where
  validateMnemonic : String → Bool
  mnemonicToSeed : String → List Nat
  bip32Node : List Nat → String → Node
  p2wpkhAddress : List Nat → String
  generateMnemonic : Nat → List Nat → String

/-- The derivation path string built by `deriveFromMnemonic`. -/
def derivationPath (account addressIndex : Nat) : String :=
  "m/84'/0'/" ++ toString account ++ "'/0/" ++ toString addressIndex

/-- `deriveFromMnemonic(mnemonic, account, addressIndex)` from
`btc-server.mjs` lines 56-68: validate, seed, path walk. -/
def deriveFromMnemonic (env : DeriveEnv) (mnemonic : String)
    (account addressIndex : Nat) : Except String (Node × String) :=
  if ¬ env.validateMnemonic mnemonic then .error "Invalid mnemonic"
  else
    .ok (env.bip32Node (env.mnemonicToSeed mnemonic) (derivationPath account addressIndex),
         derivationPath account addressIndex)

/-- `buildAddressFromNode(node)`. -/
def buildAddressFromNode (env : DeriveEnv) (node : Node) : String :=
  env.p2wpkhAddress node.publicKey

/-- Successful response of the mnemonic import route. -/
structure ImportOk where
  mnemonic : String
  derivationPath : String
  address : String
  privateKeyWIF : String
deriving Repr, DecidableEq

/-- The `POST /wallet/import/mnemonic` handler: derives address and WIF from
the supplied mnemonic and path indices.  It takes the ambient provider
`World` like every handler but performs no network call and uses no entropy. -/
def importWalletMnemonic (env : DeriveEnv) (_w : World) (mnemonic : String)
    (accountIndex addressIndex : Nat) : Except String ImportOk :=
  if mnemonic = "" then .error "mnemonic required"
  else
    match deriveFromMnemonic env mnemonic accountIndex addressIndex with
    | .error e => .error e
    | .ok (child, path) =>
      .ok ⟨mnemonic, path, buildAddressFromNode env child, child.wif⟩

end Btc

/-! ### Bitcoin router backed by the Tatum API (first document of the
unnamed source file).  Its utilities (`btcToSats`, `estimateTxVsize`,
`selectUtxosGreedy`) are byte-for-byte the same as in `btc-server.mjs` and
are shared through namespace `Btc` above.  Its send route, however, is
entirely different: it forwards the raw private key to the provider. -/

namespace TatumBtc

/-- Tatum provider response for one send request. -/
structure World where
  txId : String

/-- The `POST /:from/send` handler of the Tatum Bitcoin router (unnamed
source file, lines 307-355): after the required-field check it immediately
posts `{fromAddress: [{address: from, privateKey}], to: [{address: to, value}]}`
to the provider, which selects funding, builds and signs the transaction
remotely.  No local key decoding, no signer verification and no UTXO fetch
happens before that network call. -/
def send (w : World) (fromParam toAddr : String) (amount : ℚ)
    (privateKey : String) : Except String String × List Event :=
  if fromParam = "" ∨ toAddr = "" ∨ amount = 0 ∨ privateKey = "" then
    (.error "from, to, amount, privateKey required", [])
  else
    (.ok w.txId, [.tatumBitcoinTransaction fromParam privateKey toAddr amount])

end TatumBtc

/-! ### Solana router (`solana_server.mjs`) -/

namespace Solana

/-- A raw private-key input: either a JSON array of byte values (already an
array after body parsing) or a string. -/
inductive PKInput where
  | arr (bytes : List Nat)
  | str (s : String)
deriving Repr, DecidableEq

/-- Which `@solana/web3.js` constructor the codec selected, and with which
bytes: `Keypair.fromSecretKey` or `Keypair.fromSeed`. -/
inductive KeyMaterial where
  | secretKey (bytes : List Nat)
  | seed (bytes : List Nat)
deriving Repr, DecidableEq

/-- A constructed `Keypair`, as the routes use it. -/
structure Keypair where
  pubkeyBase58 : String
  secretKey : List Nat
deriving Repr, DecidableEq

/-- External collaborators of the Solana router: the three string decoders
tried by `keypairFromPrivateKeyInput` (`none` models a thrown error or a
non-array JSON value; `Buffer.from(input, "base64")` never throws, so that
decoder is total), `Keypair` construction, bip39 and SLIP-0010 derivation,
and the base58 encoder used by `exportKeypair`. -/
structure Env where
  jsonNumArray : String → Option (List Nat)
  bs58decode : String → Option (List Nat)
  base64decode : String → List Nat
  mkKeypair : KeyMaterial → Option Keypair
  validateMnemonic : String → Bool
  mnemonicToSeed : String → List Nat
  ed25519DerivePath : Nat → Nat → List Nat → List Nat
  bs58encode : List Nat → String
  generateMnemonic : Nat → List Nat → String

/-- `keypairFromMnemonic(mnemonic, account, change)`: validate, seed,
`derivePath("m/44'/501'/{account}'/{change}'", seedHex)`, `Keypair.fromSeed`. -/
def keypairFromMnemonic (env : Env) (mnemonic : String) (account change : Nat) :
    Except String KeyMaterial :=
  if ¬ env.validateMnemonic mnemonic then .error "Invalid mnemonic"
  else .ok (.seed (env.ed25519DerivePath account change (env.mnemonicToSeed mnemonic)))

/-- Fourth decode attempt of `keypairFromPrivateKeyInput`:
`Buffer.from(input, "base64")`, accepted at lengths 32 (seed) and 64
(secret key); every other length falls through to the terminal error. -/
def base64Branch (env : Env) (s : String) : Except String KeyMaterial :=
  let buf := env.base64decode s
  if buf.length = 32 then .ok (.seed buf)
  else if buf.length = 64 then .ok (.secretKey buf)
  else .error "Unsupported privateKey format"

/-- Third decode attempt: `bs58.decode(input)`, accepted at lengths 32 and
64; a decode error or any other length falls through to base64. -/
def bs58Branch (env : Env) (s : String) : Except String KeyMaterial :=
  match env.bs58decode s with
  | some d =>
    if d.length = 32 then .ok (.seed d)
    else if d.length = 64 then .ok (.secretKey d)
    else base64Branch env s
  | none => base64Branch env s

/-- `keypairFromPrivateKeyInput(input)` from `solana_server.mjs` lines 45-72:
(a) an array input goes straight to `Keypair.fromSecretKey`; otherwise
(b) JSON parsing to an array, (c) base58, (d) base64, in that order; if
nothing applies the route fails with the unsupported-format error. -/
def keypairFromPrivateKeyInput (env : Env) : PKInput → Except String KeyMaterial
  | .arr bytes => .ok (.secretKey bytes)
  | .str s =>
    if s = "" then .error "privateKey required"
    else
      match env.jsonNumArray s with
      | some parsed => .ok (.secretKey parsed)
      | none => bs58Branch env s

/-- `exportKeypair(kp)`: base58 public key, base58 secret key, raw bytes. -/
structure ExportedKeypair where
  publicKey : String
  privateKey : String
  secretKeyArray : List Nat
deriving Repr, DecidableEq

def exportKeypair (env : Env) (kp : Keypair) : ExportedKeypair :=
  ⟨kp.pubkeyBase58, env.bs58encode kp.secretKey, kp.secretKey⟩

/-- Ambient world of the Solana router: the entropy stream behind
`bip39.generateMnemonic` (used only by wallet creation) and the provider
reply of `sendAndConfirmTransaction`. -/
structure World where
  rng : List Nat
  confirmSignature : String

/-- The `POST /wallet/import/mnemonic` handler: derive and export.  It takes
the ambient `World` like every handler but touches neither the entropy
stream nor the network. -/
def importWalletMnemonic (env : Env) (_w : World) (mnemonic : String)
    (account change : Nat) : Except String ExportedKeypair :=
  if mnemonic = "" then .error "mnemonic required"
  else
    match keypairFromMnemonic env mnemonic account change with
    | .error e => .error e
    | .ok material =>
      match env.mkKeypair material with
      | none => .error "Keypair construction failed"
      | some kp => .ok (exportKeypair env kp)

/-- Successful response of the Solana send route. -/
structure SendOk where
  lamports : Int
  txSignature : String
deriving Repr, DecidableEq

/-- `Math.floor(Number(amount) * LAMPORTS_PER_SOL)` with
`LAMPORTS_PER_SOL = 1e9` (send route, line 175). -/
def solToLamports (amount : ℚ) : Int := ⌊amount * 1000000000⌋

/-- The `POST /:from/send` handler of `solana_server.mjs` (lines 160-201):
required-field check, key decoding, signer check against the declared
sender, lamports conversion at `LAMPORTS_PER_SOL = 1e9`, then the single
network call `sendAndConfirmTransaction`. -/
def send (env : Env) (w : World) (fromParam : String) (privateKey : PKInput)
    (toAddr : String) (amount : ℚ) : Except String SendOk × List Event :=
  if privateKey = .str "" ∨ toAddr = "" ∨ amount = 0 then
    (.error "privateKey, to, amount required", [])
  else
    match keypairFromPrivateKeyInput env privateKey with
    | .error e => (.error e, [])
    | .ok material =>
      match env.mkKeypair material with
      | none => (.error "Keypair construction failed", [])
      | some sender =>
        if sender.pubkeyBase58 ≠ fromParam then (.error "privateKey mismatch", [])
        else
          let lamports := solToLamports amount
          (.ok ⟨lamports, w.confirmSignature⟩, [.solSendAndConfirm])

end Solana

/-! ### Cardano routers (`cardano-server.mjs`: two routers concatenated) -/

namespace Cardano

/-- A Blockfrost UTXO as the send routes read it: transaction hash, output
index, and the `lovelace` entry of its `amount` list when one is present. -/
structure CUtxo where
  txHash : String
  txIndex : Nat
  lovelace : Option Int
deriving Repr, DecidableEq

/-- Value function of the first router loop: entries with no lovelace
amount are skipped (`continue`). -/
def lovelaceVal (u : CUtxo) : Option Int := u.lovelace

/-- Value function of the second router loop: a missing lovelace entry
counts as value 0 and the input is still added. -/
def lovelaceValD (u : CUtxo) : Option Int := some (u.lovelace.getD 0)

/-- Sum of the lovelace values of a list, missing entries counting 0. -/
def sumLovelace (l : List CUtxo) : Int := (l.map fun u => u.lovelace.getD 0).sum

/-- `Math.floor(Number(amount) * 1_000_000)`: ADA to lovelace (send route,
line 191). -/
def adaToLovelace (amount : ℚ) : Int := ⌊amount * 1000000⌋

/-- Input-selection loop of the first Cardano send route
(`cardano-server.mjs` lines 243-267): visit the provider list in order,
`continue` past entries with no lovelace amount, `add_input` each remaining
entry and accumulate, `break` once `totalInput >= target`. -/
def selectLoop (target : Int) : List CUtxo → List CUtxo → Int → Int × List CUtxo
  | [], chosen, total => (total, chosen)
  | u :: rest, chosen, total =>
    match u.lovelace with
    | none => selectLoop target rest chosen total
    | some v =>
      let total' := total + v
      let chosen' := chosen ++ [u]
      if target ≤ total' then (total', chosen') else selectLoop target rest chosen' total'

/-- First router selection with its fixed buffer:
`if (totalInput >= amountLovelace + 3_000_000) break`. -/
def selectInputs (utxos : List CUtxo) (amountLovelace : Int) : Int × List CUtxo :=
  selectLoop (amountLovelace + 3000000) utxos [] 0

/-- Input-selection loop of the second Cardano send route (lines 511-533):
same shape, but a missing lovelace entry contributes value 0 and is still
added as an input. -/
def selectLoop2 (target : Int) : List CUtxo → List CUtxo → Int → Int × List CUtxo
  | [], chosen, total => (total, chosen)
  | u :: rest, chosen, total =>
    let v := u.lovelace.getD 0
    let total' := total + v
    let chosen' := chosen ++ [u]
    if target ≤ total' then (total', chosen') else selectLoop2 target rest chosen' total'

/-- Second router selection with its fixed buffer:
`if (totalInput >= amountLovelace + 2_000_000) break`. -/
def selectInputs2 (utxos : List CUtxo) (amountLovelace : Int) : Int × List CUtxo :=
  selectLoop2 (amountLovelace + 2000000) utxos [] 0

/-- Ascending order on lovelace value, for stating the claimed policy. -/
def lovelaceLe (a b : CUtxo) : Prop := a.lovelace.getD 0 ≤ b.lovelace.getD 0

instance : DecidableRel lovelaceLe :=
  fun a b => inferInstanceAs (Decidable (a.lovelace.getD 0 ≤ b.lovelace.getD 0))

instance : IsTotal CUtxo lovelaceLe :=
  ⟨fun a b => le_total (a.lovelace.getD 0) (b.lovelace.getD 0)⟩

instance : IsTrans CUtxo lovelaceLe := ⟨fun _ _ _ h₁ h₂ => le_trans h₁ h₂⟩

/-- Modelled from the spec: the selection policy the specification asserts
for Cardano, namely the Bitcoin `selectUtxosGreedy` policy — visit the
UTXOs in ascending order of value and run the same accumulate-until-target
loop.  Stated only for comparison against the code's `selectInputs`. -/
def claimedSelectInputs (utxos : List CUtxo) (amountLovelace : Int) : Int × List CUtxo :=
  selectLoop (amountLovelace + 3000000) (List.insertionSort lovelaceLe utxos) [] 0

/-- Keys returned by `deriveKeysFromMnemonic`: the bech32 base address and
the payment key (opaque bytes). -/
structure Keys where
  address : String
  paymentKey : List Nat
deriving Repr, DecidableEq

/-- External collaborators of the Cardano router: bip39 validation and
entropy extraction, the CardanoWasm derivation pipeline (root key from
entropy, path `1852'/1815'/0'`, payment and stake keys, base address), and
the CardanoWasm transaction builder (outputs, `add_change_if_needed`, fee,
witness), which can throw. -/
structure Env where
  validateMnemonic : String → Bool
  entropyOf : String → List Nat
  keysFromEntropy : List Nat → Keys
  buildAndSign : List CUtxo → Int → String → String → Except String (List Nat)

/-- `deriveKeysFromMnemonic(mnemonic)` from `cardano-server.mjs` lines
46-84: validate, entropy, CardanoWasm derivation. -/
def deriveKeysFromMnemonic (env : Env) (mnemonic : String) : Except String Keys :=
  if ¬ env.validateMnemonic mnemonic then .error "Invalid mnemonic"
  else .ok (env.keysFromEntropy (env.entropyOf mnemonic))

/-- Blockfrost provider responses for one request. -/
structure World where
  utxos : List CUtxo
  submitResult : String

/-- Successful response of the Cardano import route. -/
structure ImportOk where
  network : String
  mnemonic : String
  address : String
deriving Repr, DecidableEq

/-- The `POST /wallet/import` handler of `cardano-server.mjs` (lines
108-120): mnemonic check, `deriveKeysFromMnemonic`, address response with
the configured network name.  It takes the ambient provider `World` like
every handler but performs no network call and uses no entropy. -/
def importWallet (env : Env) (_w : World) (network mnemonic : String) :
    Except String ImportOk :=
  if mnemonic = "" then .error "Mnemonic required"
  else
    match deriveKeysFromMnemonic env mnemonic with
    | .error e => .error e
    | .ok keys => .ok ⟨network, mnemonic, keys.address⟩

/-- Successful response of the first Cardano send route. -/
structure SendOk where
  fromAddress : String
  inputs : List CUtxo
  totalInput : Int
  txHash : String
deriving Repr, DecidableEq

/-- The first `POST /send` handler of `cardano-server.mjs` (lines 175-321):
required-field check, `to.startsWith("addr")` check, lovelace conversion by
`Math.floor(Number(amount) * 1_000_000)`, minimum-amount check, key
derivation, UTXO fetch, input selection, build with change, sign, submit. -/
def send (env : Env) (w : World) (mnemonic toAddr : String) (amount : ℚ) :
    Except String SendOk × List Event :=
  if mnemonic = "" ∨ toAddr = "" ∨ amount = 0 then
    (.error "mnemonic, to, amount required", [])
  else if ¬ strStartsWith toAddr "addr" then (.error "Invalid Cardano address", [])
  else
    let amountLovelace := adaToLovelace amount
    if amountLovelace < 1000000 then (.error "Minimum 1 ADA required", [])
    else
      match deriveKeysFromMnemonic env mnemonic with
      | .error e => (.error e, [.cardanoDeriveKeys])
      | .ok keys =>
        let ev₁ : List Event := [.cardanoDeriveKeys, .cardanoFetchUtxos keys.address]
        if w.utxos.length = 0 then (.error "No UTXO available", ev₁)
        else
          let sel := selectInputs w.utxos amountLovelace
          match env.buildAndSign sel.2 amountLovelace toAddr keys.address with
          | .error e => (.error e, ev₁)
          | .ok _bytes =>
            (.ok ⟨keys.address, sel.2, sel.1, w.submitResult⟩, ev₁ ++ [.cardanoSubmit])

end Cardano

/-! ### EVM router (second document of the unnamed source file, ethers.js) -/

namespace Evm

/-- The requested amount of the EVM send route: either the full-balance
sentinel (`amount` absent or the string `"max"`) or a numeric amount. -/
inductive Amount where
  | max
  | value (q : ℚ)
deriving Repr, DecidableEq

/-- `provider.getFeeData()` reply: `gasPrice` and the optional EIP-1559
quotes. -/
structure FeeData where
  gasPrice : Int
  maxFeePerGas : Option Int
  maxPriorityFeePerGas : Option Int
deriving Repr, DecidableEq

/-- Provider responses for one request. -/
structure World where
  balanceWei : Int
  feeData : FeeData
  estimatedGas : Int
  txHash : String
deriving Repr, DecidableEq

/-- External collaborators: `ethers.isAddress` and `new Wallet(pk).address`
(`none` models a thrown error on an invalid key). -/
structure Env where
  isAddress : String → Bool
  walletAddress : String → Option String

/-- The configured chains of the EVM router. -/
def CHAINS : List String := ["sonic", "ethereum", "base", "polygon"]

/-- Successful response of the EVM send route. -/
structure SendOk where
  valueWei : Int
  gasCost : Int
  txHash : String
deriving Repr, DecidableEq

/-- The `POST /wallet/:from/send` handler of the EVM router (unnamed source
file, lines 515-617): address checks, wallet construction, case-insensitive
signer check, balance fetch with positivity check, fee-data fetch, gas
estimate (skipped when the caller supplies `gasLimit`),
`gasPrice = maxFeePerGas ?? gasPrice`, `gasCost = estimatedGas * gasPrice`,
then the amount logic — the `"max"` sentinel resolves to
`balance - gasCost` after the `balance <= gasCost` funds check, a numeric
amount is parsed to wei (embedded as rounding `Number(amount).toFixed(18)`
to the nearest wei) and checked against `value + gasCost > balance` — and
finally `wallet.sendTransaction`. -/
def send (env : Env) (w : World) (fromParam toAddr privateKey chain : String)
    (gasLimit : Option Int) (amount : Amount) : Except String SendOk × List Event :=
  if ¬ (env.isAddress fromParam ∧ env.isAddress toAddr) then (.error "invalid address", [])
  else if privateKey = "" then (.error "privateKey required", [])
  else if ¬ CHAINS.contains chain then (.error ("Unsupported chain: " ++ chain), [])
  else
    match env.walletAddress privateKey with
    | none => (.error "invalid private key", [])
    | some addr =>
      if addr.toLower ≠ fromParam.toLower then (.error "privateKey mismatch", [])
      else
        let ev₁ : List Event := [.evmGetBalance fromParam]
        if w.balanceWei ≤ 0 then (.error "insufficient balance", ev₁)
        else
          let ev₂ := ev₁ ++ [.evmGetFeeData]
          let gasFetch : Int × List Event :=
            match gasLimit with
            | some g => (g, ev₂)
            | none => (w.estimatedGas, ev₂ ++ [.evmEstimateGas])
          let estimatedGas := gasFetch.1
          let ev₃ := gasFetch.2
          let gasPrice := w.feeData.maxFeePerGas.getD w.feeData.gasPrice
          let gasCost := estimatedGas * gasPrice
          match amount with
          | .max =>
            if w.balanceWei ≤ gasCost then (.error "balance too low for gas", ev₃)
            else
              let valueWei := w.balanceWei - gasCost
              (.ok ⟨valueWei, gasCost, w.txHash⟩, ev₃ ++ [.evmSendTransaction toAddr valueWei])
          | .value q =>
            let valueWei := ⌊q * 1000000000000000000 + 1/2⌋
            if w.balanceWei < valueWei + gasCost then
              (.error "amount + gas exceeds balance", ev₃)
            else
              (.ok ⟨valueWei, gasCost, w.txHash⟩, ev₃ ++ [.evmSendTransaction toAddr valueWei])

/-- A wallet as ethers constructs it from a mnemonic phrase:
`Wallet.fromPhrase(mnemonic)` yields the checksummed address and the
private key of the default derivation path. -/
structure PhraseWallet where
  address : String
  privateKey : String
deriving Repr, DecidableEq

/-- External collaborator of the EVM mnemonic import route:
`ethers.Wallet.fromPhrase` (`none` models a thrown error on an invalid
mnemonic). -/
structure PhraseEnv where
  fromPhrase : String → Option PhraseWallet

/-- Successful response of the EVM mnemonic import route. -/
structure ImportOk where
  address : String
  privateKey : String
  chain : String
deriving Repr, DecidableEq

/-- The `POST /wallet/import/mnemonic` handler of the EVM router (unnamed
source file, lines 471-489): mnemonic check, provider construction for the
chain (throwing for an unknown chain), then
`Wallet.fromPhrase(mnemonic).connect(provider)`.  It takes the ambient
provider `World` like every handler but performs no network call. -/
def importWalletMnemonic (env : PhraseEnv) (_w : World) (mnemonic chain : String) :
    Except String ImportOk :=
  if mnemonic = "" then .error "mnemonic required"
  else if ¬ CHAINS.contains chain then .error ("Unsupported chain: " ++ chain)
  else
    match env.fromPhrase mnemonic with
    | none => .error "invalid mnemonic"
    | some wlt => .ok ⟨wlt.address, wlt.privateKey, chain⟩

end Evm

end DexWallet

/-! ## Helper lemmas -/

namespace DexWallet

namespace Greedy

variable {α : Type}

@[simp] theorem sumVal_nil (val : α → Option Int) : sumVal val [] = 0 := rfl

@[simp] theorem sumVal_cons (val : α → Option Int) (u : α) (l : List α) :
    sumVal val (u :: l) = (val u).getD 0 + sumVal val l := by
  simp [sumVal]

@[simp] theorem sumVal_append (val : α → Option Int) (l₁ l₂ : List α) :
    sumVal val (l₁ ++ l₂) = sumVal val l₁ + sumVal val l₂ := by
  simp [sumVal]

/-- The chosen elements form a sublist of the input: they appear in input
order and without duplication of positions. -/
theorem chosen_sublist (val : α → Option Int) (target : Int) :
    ∀ (acc : Int) (l : List α), List.Sublist (chosen val target acc l) l := by
  intro acc l
  induction l generalizing acc with
  | nil => simp [chosen]
  | cons u rest ih =>
    rw [chosen]
    cases hv : val u with
    | none => exact (ih acc).cons u
    | some v =>
      by_cases h : target ≤ acc + v
      · simp only [if_pos h]
        exact (List.nil_sublist rest).cons₂ u
      · simp only [if_neg h]
        exact (ih (acc + v)).cons₂ u

/-- Every proper initial segment of the chosen list has running total still
below the target: the loop stops only once the target is reached. -/
theorem chosen_take_lt (val : α → Option Int) (target : Int) :
    ∀ (acc : Int) (l : List α), acc < target →
      ∀ n < (chosen val target acc l).length,
        acc + sumVal val ((chosen val target acc l).take n) < target := by
  intro acc l
  induction l generalizing acc with
  | nil => intro _ n hn; simp [chosen] at hn
  | cons u rest ih =>
    intro hacc n hn
    rw [chosen] at hn ⊢
    cases hv : val u with
    | none =>
      rw [hv] at hn
      exact ih acc hacc n hn
    | some v =>
      rw [hv] at hn
      by_cases h : target ≤ acc + v
      · simp only [if_pos h] at hn ⊢
        have hn0 : n = 0 := Nat.lt_one_iff.mp (by simpa using hn)
        subst hn0
        simpa using hacc
      · simp only [if_neg h] at hn ⊢
        match n with
        | 0 => simpa using hacc
        | n + 1 =>
          have hn' : n < (chosen val target (acc + v) rest).length := by
            simpa using hn
          have := ih (acc + v) (lt_of_not_le h) n hn'
          simpa [hv, add_assoc] using this

/-- When even the total of all usable elements stays below the target, the
loop exhausts the list: every element carrying a value is chosen. -/
theorem chosen_of_total_lt (val : α → Option Int) (target : Int) :
    ∀ (acc : Int) (l : List α), (∀ u ∈ l, 0 ≤ (val u).getD 0) →
      acc + sumVal val l < target →
      chosen val target acc l = l.filter fun u => (val u).isSome := by
  intro acc l
  induction l generalizing acc with
  | nil => intro _ _; simp [chosen]
  | cons u rest ih =>
    intro hnn htot
    rw [chosen]
    cases hv : val u with
    | none =>
      have : sumVal val (u :: rest) = sumVal val rest := by simp [hv]
      rw [this] at htot
      rw [ih acc (fun x hx => hnn x (List.mem_cons_of_mem u hx)) htot]
      simp [hv]
    | some v =>
      have hsum : sumVal val (u :: rest) = v + sumVal val rest := by simp [hv]
      rw [hsum] at htot
      have hrestnn : 0 ≤ sumVal val rest := by
        have : ∀ x ∈ rest, 0 ≤ (val x).getD 0 :=
          fun x hx => hnn x (List.mem_cons_of_mem u hx)
        simp only [sumVal]
        exact List.sum_nonneg (by
          intro y hy
          obtain ⟨x, hx, rfl⟩ := List.mem_map.mp hy
          exact this x hx)
      have hlt : ¬ target ≤ acc + v := by omega
      simp only [if_neg hlt]
      rw [ih (acc + v) (fun x hx => hnn x (List.mem_cons_of_mem u hx)) (by omega)]
      simp [hv]

/-- When the total of the list reaches the target, the chosen elements also
reach the target. -/
theorem chosen_sum_reaches (val : α → Option Int) (target : Int) :
    ∀ (acc : Int) (l : List α), target ≤ acc + sumVal val l →
      target ≤ acc + sumVal val (chosen val target acc l) := by
  intro acc l
  induction l generalizing acc with
  | nil => intro h; simpa [chosen] using h
  | cons u rest ih =>
    intro htot
    rw [chosen]
    cases hv : val u with
    | none =>
      have : sumVal val (u :: rest) = sumVal val rest := by simp [hv]
      rw [this] at htot
      exact ih acc htot
    | some v =>
      have hsum : sumVal val (u :: rest) = v + sumVal val rest := by simp [hv]
      rw [hsum] at htot
      by_cases h : target ≤ acc + v
      · simp only [if_pos h]; simpa [hv] using h
      · simp only [if_neg h]
        have := ih (acc + v) (by omega)
        simpa [hv, add_assoc] using this

end Greedy

namespace Btc

theorem sumVal_eq_sumValues (l : List Utxo) : Greedy.sumVal utxoVal l = sumValues l := by
  induction l with
  | nil => rfl
  | cons u rest ih => simp [sumValues, utxoVal] at ih ⊢; omega

theorem greedyLoop_eq (target : Int) :
    ∀ (l chosen : List Utxo) (s : Int),
      greedyLoop target l chosen s =
        (chosen ++ Greedy.chosen utxoVal target s l,
         s + Greedy.sumVal utxoVal (Greedy.chosen utxoVal target s l)) := by
  intro l
  induction l with
  | nil => intro chosen s; simp [greedyLoop, Greedy.chosen]
  | cons u rest ih =>
    intro chosen s
    rw [greedyLoop, Greedy.chosen]
    simp only [utxoVal]
    by_cases h : target ≤ s + u.value
    · simp [if_pos h, utxoVal]
    · simp only [if_neg h, ih]
      simp [utxoVal, add_assoc]

theorem selectUtxosGreedy_eq (utxos : List Utxo) (target : Int) :
    selectUtxosGreedy utxos target =
      (Greedy.chosen utxoVal target 0 (sortByValue utxos),
       sumValues (Greedy.chosen utxoVal target 0 (sortByValue utxos))) := by
  rw [selectUtxosGreedy, greedyLoop_eq]
  simp [sumVal_eq_sumValues]

/-- Sorting by value preserves the multiset of UTXOs. -/
theorem sortByValue_perm (utxos : List Utxo) : (sortByValue utxos).Perm utxos :=
  List.perm_insertionSort valueLe utxos

/-- `sortByValue` really sorts ascending by value. -/
theorem sortByValue_sorted (utxos : List Utxo) :
    List.Pairwise valueLe (sortByValue utxos) :=
  List.sorted_insertionSort valueLe utxos

theorem sumValues_perm {l₁ l₂ : List Utxo} (h : l₁.Perm l₂) :
    sumValues l₁ = sumValues l₂ := by
  unfold sumValues
  exact (h.map (·.value)).sum_eq

end Btc

namespace Cardano

theorem sumVal_lovelaceVal (l : List CUtxo) :
    Greedy.sumVal lovelaceVal l = sumLovelace l := by
  induction l with
  | nil => rfl
  | cons u rest ih => simp [sumLovelace, lovelaceVal] at ih ⊢; omega

theorem sumVal_lovelaceValD (l : List CUtxo) :
    Greedy.sumVal lovelaceValD l = sumLovelace l := by
  induction l with
  | nil => rfl
  | cons u rest ih => simp [sumLovelace, lovelaceValD] at ih ⊢; omega

theorem selectLoop_eq (target : Int) :
    ∀ (l chosen : List CUtxo) (total : Int),
      selectLoop target l chosen total =
        (total + Greedy.sumVal lovelaceVal (Greedy.chosen lovelaceVal target total l),
         chosen ++ Greedy.chosen lovelaceVal target total l) := by
  intro l
  induction l with
  | nil => intro chosen total; simp [selectLoop, Greedy.chosen]
  | cons u rest ih =>
    intro chosen total
    rw [selectLoop, Greedy.chosen]
    cases hv : u.lovelace with
    | none => simpa [lovelaceVal, hv] using ih chosen total
    | some v =>
      simp only [lovelaceVal, hv]
      by_cases h : target ≤ total + v
      · simp [if_pos h, lovelaceVal, hv]
      · simp only [if_neg h, ih]
        simp [lovelaceVal, hv, add_assoc]

theorem selectLoop2_eq (target : Int) :
    ∀ (l chosen : List CUtxo) (total : Int),
      selectLoop2 target l chosen total =
        (total + Greedy.sumVal lovelaceValD (Greedy.chosen lovelaceValD target total l),
         chosen ++ Greedy.chosen lovelaceValD target total l) := by
  intro l
  induction l with
  | nil => intro chosen total; simp [selectLoop2, Greedy.chosen]
  | cons u rest ih =>
    intro chosen total
    rw [selectLoop2, Greedy.chosen]
    simp only [lovelaceValD]
    by_cases h : target ≤ total + u.lovelace.getD 0
    · simp [if_pos h, lovelaceValD]
    · simp only [if_neg h, ih]
      simp [lovelaceValD, add_assoc]

theorem selectInputs_eq (utxos : List CUtxo) (amountLovelace : Int) :
    selectInputs utxos amountLovelace =
      (sumLovelace (Greedy.chosen lovelaceVal (amountLovelace + 3000000) 0 utxos),
       Greedy.chosen lovelaceVal (amountLovelace + 3000000) 0 utxos) := by
  rw [selectInputs, selectLoop_eq]
  simp [sumVal_lovelaceVal]

theorem selectInputs2_eq (utxos : List CUtxo) (amountLovelace : Int) :
    selectInputs2 utxos amountLovelace =
      (sumLovelace (Greedy.chosen lovelaceValD (amountLovelace + 2000000) 0 utxos),
       Greedy.chosen lovelaceValD (amountLovelace + 2000000) 0 utxos) := by
  rw [selectInputs2, selectLoop2_eq]
  simp [sumVal_lovelaceValD]

end Cardano

end DexWallet

/-! ## Claim theorems -/

namespace DexWallet

/-- C2: for every sequence of UTXOs and every target, `selectUtxosGreedy`
sorts the UTXOs ascending by value and accumulates them in that order into
a chosen set, stopping once the running sum reaches the target (every
proper initial segment of the chosen set sums below the target); it returns
the chosen set together with its sum; when the total of all UTXOs is below
the target it returns the full (sorted) set with its insufficient sum — and
being a total Lean function it raises no error; on `[1000, 2000, 5000]`
with target `3500` it chooses all three with sum `8000`. -/
theorem selectUtxosGreedy_spec (utxos : List Btc.Utxo) (target : Int)
    (hnn : ∀ u ∈ utxos, 0 ≤ u.value) :
    ((Btc.selectUtxosGreedy utxos target).2
        = Btc.sumValues (Btc.selectUtxosGreedy utxos target).1)
    ∧ List.Sublist (Btc.selectUtxosGreedy utxos target).1 (Btc.sortByValue utxos)
    ∧ List.Pairwise Btc.valueLe (Btc.selectUtxosGreedy utxos target).1
    ∧ (0 < target → ∀ n < (Btc.selectUtxosGreedy utxos target).1.length,
        Btc.sumValues ((Btc.selectUtxosGreedy utxos target).1.take n) < target)
    ∧ (target ≤ Btc.sumValues utxos → target ≤ (Btc.selectUtxosGreedy utxos target).2)
    ∧ (Btc.sumValues utxos < target →
        (Btc.selectUtxosGreedy utxos target).1 = Btc.sortByValue utxos
        ∧ (Btc.selectUtxosGreedy utxos target).1.Perm utxos
        ∧ (Btc.selectUtxosGreedy utxos target).2 = Btc.sumValues utxos)
    ∧ Btc.selectUtxosGreedy [⟨"a", 0, 1000⟩, ⟨"b", 1, 2000⟩, ⟨"c", 2, 5000⟩] 3500
        = ([⟨"a", 0, 1000⟩, ⟨"b", 1, 2000⟩, ⟨"c", 2, 5000⟩], 8000) := by
  have he := Btc.selectUtxosGreedy_eq utxos target
  have hperm := Btc.sortByValue_perm utxos
  have hsum : Btc.sumValues (Btc.sortByValue utxos) = Btc.sumValues utxos :=
    Btc.sumValues_perm hperm
  refine ⟨?_, ?_, ?_, ?_, ?_, ?_, by decide⟩
  · rw [he]
  · rw [he]
    exact Greedy.chosen_sublist Btc.utxoVal target 0 (Btc.sortByValue utxos)
  · rw [he]
    exact List.Pairwise.sublist
      (Greedy.chosen_sublist Btc.utxoVal target 0 (Btc.sortByValue utxos))
      (Btc.sortByValue_sorted utxos)
  · intro hpos n hn
    rw [he] at hn ⊢
    have := Greedy.chosen_take_lt Btc.utxoVal target 0 (Btc.sortByValue utxos) hpos n (by simpa using hn)
    rw [Btc.sumVal_eq_sumValues] at this
    simpa using this
  · intro h
    rw [he]
    have := Greedy.chosen_sum_reaches Btc.utxoVal target 0 (Btc.sortByValue utxos)
      (by rw [Btc.sumVal_eq_sumValues, hsum]; omega)
    rw [Btc.sumVal_eq_sumValues] at this
    simpa using this
  · intro h
    have hnn' : ∀ u ∈ Btc.sortByValue utxos, 0 ≤ (Btc.utxoVal u).getD 0 := by
      intro u hu
      simpa [Btc.utxoVal] using hnn u (hperm.mem_iff.mp hu)
    have htot : 0 + Greedy.sumVal Btc.utxoVal (Btc.sortByValue utxos) < target := by
      rw [Btc.sumVal_eq_sumValues, hsum]; omega
    have hc := Greedy.chosen_of_total_lt Btc.utxoVal target 0 (Btc.sortByValue utxos) hnn' htot
    have hfilter : (Btc.sortByValue utxos).filter (fun u => (Btc.utxoVal u).isSome)
        = Btc.sortByValue utxos := by
      simp [Btc.utxoVal]
    rw [hfilter] at hc
    refine ⟨by rw [he]; exact hc, ?_, ?_⟩
    · rw [he]; simpa [hc] using hperm
    · rw [he]; rw [hc, hsum]

/-- Witness for C2 at the concrete input of the claim: the nonnegativity
hypothesis holds for `[1000, 2000, 5000]`, the selection picks all three
with sum 8000, and the initial segment of two UTXOs still sums below the
target 3500. -/
theorem selectUtxosGreedy_spec_witness :
    (∀ u ∈ ([⟨"a", 0, 1000⟩, ⟨"b", 1, 2000⟩, ⟨"c", 2, 5000⟩] : List Btc.Utxo), 0 ≤ u.value)
    ∧ Btc.selectUtxosGreedy [⟨"a", 0, 1000⟩, ⟨"b", 1, 2000⟩, ⟨"c", 2, 5000⟩] 3500
        = ([⟨"a", 0, 1000⟩, ⟨"b", 1, 2000⟩, ⟨"c", 2, 5000⟩], 8000)
    ∧ Btc.sumValues ((Btc.selectUtxosGreedy
        [⟨"a", 0, 1000⟩, ⟨"b", 1, 2000⟩, ⟨"c", 2, 5000⟩] 3500).1.take 2) < 3500 :=
  ⟨by decide,
   (selectUtxosGreedy_spec [⟨"a", 0, 1000⟩, ⟨"b", 1, 2000⟩, ⟨"c", 2, 5000⟩] 3500
      (by decide)).2.2.2.2.2.2,
   (selectUtxosGreedy_spec [⟨"a", 0, 1000⟩, ⟨"b", 1, 2000⟩, ⟨"c", 2, 5000⟩] 3500
      (by decide)).2.2.2.1 (by decide) 2 (by decide)⟩

/-- C3, counterexample: the claimed concrete values are arithmetically
wrong for the formula the claim itself states: `68*2 + 31*2 + 10 = 208`,
not 218, so `estimateTxVsize 2 2 = 208` and the fee at rate 10 is 2080
base units, not 2180. -/
theorem fee_formula_218_counterexample :
    Btc.estimateTxVsize 2 2 = 208
    ∧ ¬ Btc.estimateTxVsize 2 2 = 218
    ∧ Btc.ceilFee (Btc.estimateTxVsize 2 2) 10 = 2080
    ∧ ¬ Btc.ceilFee (Btc.estimateTxVsize 2 2) 10 = 2180 := by
  have h208 : Btc.estimateTxVsize 2 2 = 208 := by
    norm_num [Btc.estimateTxVsize, Btc.VBYTE_PER_INPUT, Btc.VBYTE_PER_OUTPUT,
      Btc.TX_OVERHEAD_VBYTES]
  have hfee : Btc.ceilFee (Btc.estimateTxVsize 2 2) 10 = 2080 := by
    rw [h208]
    show (⌈((208 : Nat) : ℚ) * 10⌉ : Int) = 2080
    norm_num
  exact ⟨h208, by omega, hfee, by omega⟩

/-- C3, amended: the UTXO-chain fee is `ceil((68*n + 31*m + 10) * r)` for
`n` inputs, `m` outputs and fee rate `r`: `estimateTxVsize` is exactly the
linear vsize formula and the route fee is the ceiling of `vsize * rate`;
in particular `vsize(2, 2) = 208` and the fee at rate 10 is 2080 base
units. -/
theorem fee_formula_spec :
    (∀ (n m : Nat) (r : ℚ),
        Btc.ceilFee (Btc.estimateTxVsize n m) r = ⌈((68 * n + 31 * m + 10 : Nat) : ℚ) * r⌉)
    ∧ Btc.estimateTxVsize 2 2 = 208
    ∧ Btc.ceilFee (Btc.estimateTxVsize 2 2) 10 = 2080 := by
  have hv : ∀ n m : Nat, Btc.estimateTxVsize n m = 68 * n + 31 * m + 10 := by
    intro n m
    simp [Btc.estimateTxVsize, Btc.VBYTE_PER_INPUT, Btc.VBYTE_PER_OUTPUT,
      Btc.TX_OVERHEAD_VBYTES]
    ring
  refine ⟨fun n m r => by rw [hv]; exact rfl, by rw [hv], ?_⟩
  have h208 : Btc.estimateTxVsize 2 2 = 208 := by rw [hv]
  rw [h208]
  show (⌈((208 : Nat) : ℚ) * 10⌉ : Int) = 2080
  norm_num

/-- C10: on the BTC, Solana and Cardano chains the decimal amount is
converted to integer base units by flooring the product with `10^8`, `10^9`
and `10^6` respectively; the result is an integer at most the product and
is never rounded up. -/
theorem floor_conversion_spec :
    ∀ q : ℚ,
      (Btc.btcToSats q = ⌊q * 10 ^ 8⌋ ∧ (Btc.btcToSats q : ℚ) ≤ q * 10 ^ 8)
      ∧ (Solana.solToLamports q = ⌊q * 10 ^ 9⌋ ∧ (Solana.solToLamports q : ℚ) ≤ q * 10 ^ 9)
      ∧ (Cardano.adaToLovelace q = ⌊q * 10 ^ 6⌋ ∧ (Cardano.adaToLovelace q : ℚ) ≤ q * 10 ^ 6) := by
  intro q
  have h8 : (10 : ℚ) ^ 8 = 100000000 := by norm_num
  have h9 : (10 : ℚ) ^ 9 = 1000000000 := by norm_num
  have h6 : (10 : ℚ) ^ 6 = 1000000 := by norm_num
  refine ⟨⟨by rw [Btc.btcToSats, h8], ?_⟩, ⟨by rw [Solana.solToLamports, h9], ?_⟩,
          ⟨by rw [Cardano.adaToLovelace, h6], ?_⟩⟩
  · rw [Btc.btcToSats, h8]; exact Int.floor_le _
  · rw [Solana.solToLamports, h9]; exact Int.floor_le _
  · rw [Cardano.adaToLovelace, h6]; exact Int.floor_le _

end DexWallet

namespace DexWallet

/-- C7: for every raw private-key input, the Solana key codec tries the
decoders in the fixed priority order (a) array of byte values, (b)
JSON-encoded array of byte values, (c) base58-decoded 32-byte seed or
64-byte expanded key, (d) base64-decoded 32/64-byte forms; the first
successful decode determines the key material, and when none applies the
codec fails with the unsupported-format error. -/
theorem keyCodec_priority_spec (env : Solana.Env) :
    (∀ bytes, Solana.keypairFromPrivateKeyInput env (.arr bytes) = .ok (.secretKey bytes))
    ∧ (∀ s a, s ≠ "" → env.jsonNumArray s = some a →
        Solana.keypairFromPrivateKeyInput env (.str s) = .ok (.secretKey a))
    ∧ (∀ s d, s ≠ "" → env.jsonNumArray s = none → env.bs58decode s = some d →
        (d.length = 32 → Solana.keypairFromPrivateKeyInput env (.str s) = .ok (.seed d))
        ∧ (d.length = 64 → Solana.keypairFromPrivateKeyInput env (.str s) = .ok (.secretKey d)))
    ∧ (∀ s, s ≠ "" → env.jsonNumArray s = none →
        (env.bs58decode s = none ∨
          ∃ d, env.bs58decode s = some d ∧ d.length ≠ 32 ∧ d.length ≠ 64) →
        ((env.base64decode s).length = 32 →
            Solana.keypairFromPrivateKeyInput env (.str s)
              = .ok (.seed (env.base64decode s)))
        ∧ ((env.base64decode s).length = 64 →
            Solana.keypairFromPrivateKeyInput env (.str s)
              = .ok (.secretKey (env.base64decode s)))
        ∧ ((env.base64decode s).length ≠ 32 → (env.base64decode s).length ≠ 64 →
            Solana.keypairFromPrivateKeyInput env (.str s)
              = .error "Unsupported privateKey format")) := by
  refine ⟨fun bytes => rfl, ?_, ?_, ?_⟩
  · intro s a hs hj
    simp [Solana.keypairFromPrivateKeyInput, hs, hj]
  · intro s d hs hj hb
    constructor
    · intro h32
      simp [Solana.keypairFromPrivateKeyInput, Solana.bs58Branch, hs, hj, hb, h32]
    · intro h64
      have h32 : d.length ≠ 32 := by omega
      simp [Solana.keypairFromPrivateKeyInput, Solana.bs58Branch, hs, hj, hb, h32, h64]
  · intro s hs hj hb
    have hbase : Solana.keypairFromPrivateKeyInput env (.str s) = Solana.base64Branch env s := by
      rcases hb with hb | ⟨d, hb, hd32, hd64⟩
      · simp [Solana.keypairFromPrivateKeyInput, Solana.bs58Branch, hs, hj, hb]
      · simp [Solana.keypairFromPrivateKeyInput, Solana.bs58Branch, hs, hj, hb, hd32, hd64]
    refine ⟨?_, ?_, ?_⟩
    · intro h32
      rw [hbase]
      simp [Solana.base64Branch, h32]
    · intro h64
      have h32 : (env.base64decode s).length ≠ 32 := by omega
      rw [hbase]
      simp [Solana.base64Branch, h32, h64]
    · intro h32 h64
      rw [hbase]
      simp [Solana.base64Branch, h32, h64]

/-- Witness for C7: with decoders that all fail, the string input `"zz"`
lands in the terminal unsupported-format error via the priority chain. -/
theorem keyCodec_priority_witness :
    Solana.keypairFromPrivateKeyInput
        ⟨fun _ => none, fun _ => none, fun _ => [], fun _ => none, fun _ => false,
         fun _ => [], fun _ _ _ => [], fun _ => "", fun _ _ => ""⟩ (.str "zz")
      = .error "Unsupported privateKey format" :=
  ((keyCodec_priority_spec _).2.2.2 "zz" (by decide) rfl (Or.inl rfl)).2.2
    (by decide) (by decide)

/-- C8: for every chain variant — Bitcoin, Solana, Cardano and EVM — key
derivation is a pure, deterministic function of the mnemonic and path
parameters: each router's mnemonic import handler, which derives the keys
and address, returns identical results (private key, public key and
address included) for the same mnemonic and indices whatever the ambient
world (provider responses, entropy stream) is; hence deriving twice with
the same inputs, even in two different request contexts, is
byte-identical. -/
theorem derivation_deterministic_spec (benv : Btc.DeriveEnv) (senv : Solana.Env)
    (cenv : Cardano.Env) (eenv : Evm.PhraseEnv)
    (w₁ w₂ : Btc.World) (v₁ v₂ : Solana.World) (x₁ x₂ : Cardano.World)
    (y₁ y₂ : Evm.World) (m network chain : String) (a i c : Nat) :
    Btc.importWalletMnemonic benv w₁ m a i = Btc.importWalletMnemonic benv w₂ m a i
    ∧ Solana.importWalletMnemonic senv v₁ m a c = Solana.importWalletMnemonic senv v₂ m a c
    ∧ Cardano.importWallet cenv x₁ network m = Cardano.importWallet cenv x₂ network m
    ∧ Evm.importWalletMnemonic eenv y₁ m chain = Evm.importWalletMnemonic eenv y₂ m chain :=
  ⟨rfl, rfl, rfl, rfl⟩

/-- C9: the first Cardano send route rejects any requested amount whose
floored lovelace value is below 1,000,000 with the minimum-amount error,
and does so before deriving keys from the mnemonic and before any provider
call: the event trace of the request is empty. -/
theorem cardano_min_amount_spec (env : Cardano.Env) (w : Cardano.World)
    (mnemonic toAddr : String) (amount : ℚ)
    (hm : mnemonic ≠ "") (ht : toAddr ≠ "") (ha : amount ≠ 0)
    (haddr : strStartsWith toAddr "addr" = true)
    (hmin : Cardano.adaToLovelace amount < 1000000) :
    Cardano.send env w mnemonic toAddr amount = (.error "Minimum 1 ADA required", []) := by
  rw [Cardano.send]
  rw [if_neg (by simp [hm, ht, ha]), if_neg (by simp [haddr])]
  simp only [if_pos hmin]

/-- Witness for C9: a request for 0.5 ADA is rejected with the
minimum-amount error and an empty event trace. -/
theorem cardano_min_amount_witness :
    Cardano.send
        ⟨fun _ => true, fun _ => [], fun _ => ⟨"addr1payer", []⟩, fun _ _ _ _ => .ok []⟩
        ⟨[], ""⟩ "mnemonic words" "addr1dest" (1 / 2)
      = (.error "Minimum 1 ADA required", []) :=
  cardano_min_amount_spec _ _ _ _ _ (by decide) (by decide) (by norm_num)
    (by decide) (by norm_num [Cardano.adaToLovelace])

end DexWallet

namespace DexWallet

/-- C5: for the EVM send with the "max" amount sentinel, with fetched
balance `B = balanceWei` and computed gas cost
`G = (gasLimit ?? estimatedGas) * (maxFeePerGas ?? gasPrice)`: when `B > G`
the resolved send amount is exactly `B - G`; when `B ≤ G` the route fails
with the funds error and the signing call `sendTransaction` never happens. -/
theorem evm_max_amount_spec (env : Evm.Env) (w : Evm.World)
    (fromParam toAddr privateKey chain : String) (gasLimit : Option Int) (a : String)
    (hf : env.isAddress fromParam = true) (ht : env.isAddress toAddr = true)
    (hpk : privateKey ≠ "") (hc : Evm.CHAINS.contains chain = true)
    (hwa : env.walletAddress privateKey = some a)
    (hmatch : a.toLower = fromParam.toLower)
    (hbal : 0 < w.balanceWei) :
    (gasLimit.getD w.estimatedGas * w.feeData.maxFeePerGas.getD w.feeData.gasPrice
        < w.balanceWei →
      (Evm.send env w fromParam toAddr privateKey chain gasLimit .max).1
        = .ok ⟨w.balanceWei
                 - gasLimit.getD w.estimatedGas
                     * w.feeData.maxFeePerGas.getD w.feeData.gasPrice,
               gasLimit.getD w.estimatedGas
                 * w.feeData.maxFeePerGas.getD w.feeData.gasPrice,
               w.txHash⟩)
    ∧ (w.balanceWei
          ≤ gasLimit.getD w.estimatedGas * w.feeData.maxFeePerGas.getD w.feeData.gasPrice →
      (Evm.send env w fromParam toAddr privateKey chain gasLimit .max).1
        = .error "balance too low for gas"
      ∧ ∀ t v, Event.evmSendTransaction t v
          ∉ (Evm.send env w fromParam toAddr privateKey chain gasLimit .max).2) := by
  have hc' : chain ∈ Evm.CHAINS := by simpa using hc
  cases gasLimit with
  | none =>
    refine ⟨fun hlt => ?_, fun hle => ⟨?_, ?_⟩⟩
    · have hnot : ¬ w.balanceWei
          ≤ w.estimatedGas * w.feeData.maxFeePerGas.getD w.feeData.gasPrice := by
        simpa using not_le.mpr hlt
      simp [Evm.send, hf, ht, hpk, hc', hwa, hmatch, hbal.not_le, hnot]
    · have hle' : w.balanceWei
          ≤ w.estimatedGas * w.feeData.maxFeePerGas.getD w.feeData.gasPrice := by
        simpa using hle
      simp [Evm.send, hf, ht, hpk, hc', hwa, hmatch, hbal.not_le, hle']
    · intro t v
      have hle' : w.balanceWei
          ≤ w.estimatedGas * w.feeData.maxFeePerGas.getD w.feeData.gasPrice := by
        simpa using hle
      simp [Evm.send, hf, ht, hpk, hc', hwa, hmatch, hbal.not_le, hle']
  | some g =>
    refine ⟨fun hlt => ?_, fun hle => ⟨?_, ?_⟩⟩
    · have hnot : ¬ w.balanceWei
          ≤ g * w.feeData.maxFeePerGas.getD w.feeData.gasPrice := by
        simpa using not_le.mpr hlt
      simp [Evm.send, hf, ht, hpk, hc', hwa, hmatch, hbal.not_le, hnot]
    · have hle' : w.balanceWei
          ≤ g * w.feeData.maxFeePerGas.getD w.feeData.gasPrice := by
        simpa using hle
      simp [Evm.send, hf, ht, hpk, hc', hwa, hmatch, hbal.not_le, hle']
    · intro t v
      have hle' : w.balanceWei
          ≤ g * w.feeData.maxFeePerGas.getD w.feeData.gasPrice := by
        simpa using hle
      simp [Evm.send, hf, ht, hpk, hc', hwa, hmatch, hbal.not_le, hle']

/-- Witness for C5 at concrete inputs: with balance 100, gas limit 4 and
maxFeePerGas 3 the resolved amount is exactly 100 - 12 = 88; with balance
10 and the same gas cost the route fails with the funds error. -/
theorem evm_max_amount_witness :
    (Evm.send ⟨fun _ => true, fun _ => some "0xabc"⟩
        ⟨100, ⟨2, some 3, none⟩, 5, "0xhash"⟩ "0xabc" "0xdef" "pk" "ethereum"
        (some 4) .max).1
      = .ok ⟨88, 12, "0xhash"⟩
    ∧ (Evm.send ⟨fun _ => true, fun _ => some "0xabc"⟩
        ⟨10, ⟨2, some 3, none⟩, 5, "0xhash"⟩ "0xabc" "0xdef" "pk" "ethereum"
        (some 4) .max).1
      = .error "balance too low for gas" :=
  ⟨by
    exact (evm_max_amount_spec ⟨fun _ => true, fun _ => some "0xabc"⟩
      ⟨100, ⟨2, some 3, none⟩, 5, "0xhash"⟩ "0xabc" "0xdef" "pk" "ethereum"
      (some 4) "0xabc" rfl rfl (by decide) (by decide) rfl rfl (by decide)).1 (by decide),
   ((evm_max_amount_spec ⟨fun _ => true, fun _ => some "0xabc"⟩
      ⟨10, ⟨2, some 3, none⟩, 5, "0xhash"⟩ "0xabc" "0xdef" "pk" "ethereum"
      (some 4) "0xabc" rfl rfl (by decide) (by decide) rfl rfl (by decide)).2 (by decide)).1⟩

/-- C1, amended: the Blockstream Bitcoin, Solana and EVM send routes verify
that the address derived from the supplied private key equals the
caller-declared sender before any network call: on mismatch they fail with
the privateKey-mismatch error and an empty event trace (in particular no
funding data is fetched). -/
theorem signer_check_spec :
    (∀ (env : Btc.Env) (w : Btc.World) (fromParam wif toAddr : String) (amount : ℚ)
        (feeRate : Option ℚ) (a : String),
        wif ≠ "" → toAddr ≠ "" → amount ≠ 0 →
        env.wifToAddress wif = some a → a ≠ fromParam →
        Btc.send env w fromParam wif toAddr amount feeRate
          = (.error "privateKey mismatch", []))
    ∧ (∀ (env : Solana.Env) (w : Solana.World) (fromParam : String)
        (privateKey : Solana.PKInput) (toAddr : String) (amount : ℚ)
        (material : Solana.KeyMaterial) (kp : Solana.Keypair),
        privateKey ≠ .str "" → toAddr ≠ "" → amount ≠ 0 →
        Solana.keypairFromPrivateKeyInput env privateKey = .ok material →
        env.mkKeypair material = some kp →
        kp.pubkeyBase58 ≠ fromParam →
        Solana.send env w fromParam privateKey toAddr amount
          = (.error "privateKey mismatch", []))
    ∧ (∀ (env : Evm.Env) (w : Evm.World) (fromParam toAddr privateKey chain : String)
        (gasLimit : Option Int) (amount : Evm.Amount) (a : String),
        env.isAddress fromParam = true → env.isAddress toAddr = true →
        privateKey ≠ "" → Evm.CHAINS.contains chain = true →
        env.walletAddress privateKey = some a →
        a.toLower ≠ fromParam.toLower →
        Evm.send env w fromParam toAddr privateKey chain gasLimit amount
          = (.error "privateKey mismatch", [])) := by
  refine ⟨?_, ?_, ?_⟩
  · intro env w fromParam wif toAddr amount feeRate a hwif hto hamt hwa hne
    simp [Btc.send, hwif, hto, hamt, hwa, hne]
  · intro env w fromParam privateKey toAddr amount material kp hpk hto hamt hdec hmk hne
    simp [Solana.send, hpk, hto, hamt, hdec, hmk, hne]
  · intro env w fromParam toAddr privateKey chain gasLimit amount a hf ht hpk hc hwa hne
    have hc' : chain ∈ Evm.CHAINS := by simpa using hc
    simp [Evm.send, hf, ht, hpk, hc', hwa, hne]

/-- Witness for C1 at concrete inputs: a WIF deriving to `bc1qreal` but a
declared sender `bc1qclaimed` is rejected by the Blockstream route with the
mismatch error and no provider call. -/
theorem signer_check_witness :
    Btc.send ⟨fun _ => some "bc1qreal"⟩ ⟨[], 1⟩ "bc1qclaimed" "KWif" "bc1qto" 1 none
      = (.error "privateKey mismatch", []) :=
  signer_check_spec.1 ⟨fun _ => some "bc1qreal"⟩ ⟨[], 1⟩ "bc1qclaimed" "KWif"
    "bc1qto" 1 none "bc1qreal" (by decide) (by decide) (by norm_num) rfl (by decide)

/-- C1, counterexample: the Tatum Bitcoin send route performs no signer
verification at all — with an arbitrary declared sender and an arbitrary
private key it immediately performs its one network call, forwarding the
raw private key to the provider, and returns success; so not every chain
variant verifies the derived address against the declared sender before a
network call. -/
theorem tatum_send_no_signer_check :
    TatumBtc.send ⟨"txid-1"⟩ "bc1qdeclared" "bc1qdest" 1 "WIF-of-another-address"
      = (.ok "txid-1",
         [.tatumBitcoinTransaction "bc1qdeclared" "WIF-of-another-address" "bc1qdest" 1]) := by
  have hcond : ¬ (("bc1qdeclared" : String) = "" ∨ ("bc1qdest" : String) = ""
      ∨ (1 : ℚ) = 0 ∨ ("WIF-of-another-address" : String) = "") := by
    push_neg
    exact ⟨by decide, by decide, by norm_num, by decide⟩
  rw [TatumBtc.send, if_neg hcond]

end DexWallet

namespace DexWallet

/-- C4, amended: every successful Blockstream Bitcoin send satisfies
`sum(inputs) = sum(outputs) + fee` (hence `≥`) before signing; the
transaction always carries a change output returning
`sum(inputs) - amount - fee` to the sender — including when that value is
exactly zero, which the route does not omit — and the change value is never
negative because `sum(inputs) < amount + fee` is instead the terminal
insufficient-funds error. -/
theorem btc_send_funded_change_spec (env : Btc.Env) (w : Btc.World)
    (fromParam wif toAddr : String) (amount : ℚ) (feeRate : Option ℚ)
    (p : Btc.SendOk)
    (h : (Btc.send env w fromParam wif toAddr amount feeRate).1 = .ok p) :
    Btc.sumValues p.inputs = Btc.outputsSum p.outputs + p.fee
    ∧ p.outputs = [(toAddr, p.amountSats),
                   (fromParam, Btc.sumValues p.inputs - p.amountSats - p.fee)]
    ∧ 0 ≤ Btc.sumValues p.inputs - p.amountSats - p.fee := by
  rw [Btc.send] at h
  dsimp only at h
  rw [Btc.selectUtxosGreedy_eq] at h
  split at h
  · simp at h
  · split at h
    · simp at h
    · split at h
      · simp at h
      · split at h
        · simp at h
        · split at h
          · simp at h
          · rename_i hfund
            simp only [Except.ok.injEq] at h
            subst h
            rename_i fromAddress hne hu
            push_neg at hne
            subst hne
            refine ⟨?_, rfl, ?_⟩
            · simp [Btc.outputsSum]
              ring
            · push_neg at hfund
              dsimp only at hfund ⊢
              omega

/-- Witness for C4 at a funded request: one 20000-satoshi UTXO, amount
0.0001 BTC at fee rate 1; the success payload satisfies the input/output/fee
balance, carries the change output to the sender, and its change is
nonnegative. -/
theorem btc_send_funded_change_witness :
    Btc.sumValues ([⟨"t1", 0, 20000⟩] : List Btc.Utxo)
        = Btc.outputsSum [("bc1qto", 10000), ("bc1qfrom", 9860)] + 140
    ∧ ([("bc1qto", (10000 : Int)), ("bc1qfrom", 9860)]
        = [("bc1qto", (10000 : Int)),
           ("bc1qfrom", Btc.sumValues [⟨"t1", 0, 20000⟩] - 10000 - 140)])
    ∧ (0 : Int) ≤ Btc.sumValues [⟨"t1", 0, 20000⟩] - 10000 - 140 := by
  have hamt : Btc.btcToSats (1 / 10000) = 10000 := by
    rw [Btc.btcToSats]; norm_num
  have hsel : Btc.selectUtxosGreedy [⟨"t1", 0, 20000⟩] 11000
      = ([⟨"t1", 0, 20000⟩], 20000) := by decide
  have hvs : Btc.estimateTxVsize 1 2 = 140 := by decide
  have hfee : Btc.ceilFee (Btc.estimateTxVsize 1 2) 1 = 140 := by
    rw [hvs]
    show (⌈((140 : Nat) : ℚ) * 1⌉ : Int) = 140
    norm_num
  have hsend : (Btc.send ⟨fun _ => some "bc1qfrom"⟩ ⟨[⟨"t1", 0, 20000⟩], 1⟩
      "bc1qfrom" "KWif" "bc1qto" (1 / 10000) (some 1)).1
      = .ok ⟨[⟨"t1", 0, 20000⟩], [("bc1qto", 10000), ("bc1qfrom", 9860)], 140, 10000⟩ := by
    rw [Btc.send]
    norm_num [hamt, hsel, hfee]
    rw [if_neg (show ¬ (("KWif" : String) = "" ∨ ("bc1qto" : String) = "") by decide)]
  have := btc_send_funded_change_spec ⟨fun _ => some "bc1qfrom"⟩ ⟨[⟨"t1", 0, 20000⟩], 1⟩
    "bc1qfrom" "KWif" "bc1qto" (1 / 10000) (some 1)
    ⟨[⟨"t1", 0, 20000⟩], [("bc1qto", 10000), ("bc1qfrom", 9860)], 140, 10000⟩ hsend
  exact this

/-- C4, counterexample: with one 10140-satoshi UTXO, amount 0.0001 BTC
(10000 satoshis) and fee rate 1, the fee is 140 and the funds check passes
with equality, and the route succeeds with a zero-valued change output to
the sender attached to the transaction — the change output is not omitted
when its value is zero, and the zero case is not a funds error. -/
theorem btc_send_zero_change_counterexample :
    (Btc.send ⟨fun _ => some "bc1qfrom"⟩ ⟨[⟨"t1", 0, 10140⟩], 1⟩
        "bc1qfrom" "KWif" "bc1qto" (1 / 10000) (some 1)).1
      = .ok ⟨[⟨"t1", 0, 10140⟩], [("bc1qto", 10000), ("bc1qfrom", 0)], 140, 10000⟩ := by
  have hamt : Btc.btcToSats (1 / 10000) = 10000 := by
    rw [Btc.btcToSats]; norm_num
  have hsel : Btc.selectUtxosGreedy [⟨"t1", 0, 10140⟩] 11000
      = ([⟨"t1", 0, 10140⟩], 10140) := by decide
  have hvs : Btc.estimateTxVsize 1 2 = 140 := by decide
  have hfee : Btc.ceilFee (Btc.estimateTxVsize 1 2) 1 = 140 := by
    rw [hvs]
    show (⌈((140 : Nat) : ℚ) * 1⌉ : Int) = 140
    norm_num
  rw [Btc.send]
  norm_num [hamt, hsel, hfee]
  rw [if_neg (show ¬ (("KWif" : String) = "" ∨ ("bc1qto" : String) = "") by decide)]

end DexWallet

namespace DexWallet

/-- C6, counterexample: the Cardano input selection does not follow the
ascending-order policy of `selectUtxosGreedy`.  With provider order
`[5 ADA, 2 ADA]` and requested amount 1 ADA (selection target 4,000,000
lovelace), the code takes the first provider entry (5 ADA) and stops,
while the claimed ascending policy would take 2 ADA first and then 5 ADA;
the two selections differ. -/
theorem cardano_selection_sorted_counterexample :
    Cardano.selectInputs [⟨"h1", 0, some 5000000⟩, ⟨"h2", 0, some 2000000⟩] 1000000
        = (5000000, [⟨"h1", 0, some 5000000⟩])
    ∧ Cardano.claimedSelectInputs [⟨"h1", 0, some 5000000⟩, ⟨"h2", 0, some 2000000⟩] 1000000
        = (7000000, [⟨"h2", 0, some 2000000⟩, ⟨"h1", 0, some 5000000⟩])
    ∧ Cardano.selectInputs [⟨"h1", 0, some 5000000⟩, ⟨"h2", 0, some 2000000⟩] 1000000
        ≠ Cardano.claimedSelectInputs [⟨"h1", 0, some 5000000⟩, ⟨"h2", 0, some 2000000⟩] 1000000 :=
  ⟨by decide, by decide, by decide⟩

/-- C6, amended: both Cardano send routes run the accumulate-until-target
loop over the UTXOs in provider order, without sorting: the chosen inputs
are a sublist of the provider list in its original order; the returned
total is the sum of the chosen inputs; selection stops exactly when the
running total reaches the target — requested amount plus the fixed buffer,
3,000,000 lovelace in the first router (which skips entries with no
lovelace amount) and 2,000,000 in the second (which counts such entries as
zero); if even the whole list stays below the target, everything usable is
taken. -/
theorem cardano_selection_provider_order_spec
    (utxos : List Cardano.CUtxo) (amountLovelace : Int)
    (hnn : ∀ u ∈ utxos, 0 ≤ u.lovelace.getD 0) :
    (List.Sublist (Cardano.selectInputs utxos amountLovelace).2 utxos
      ∧ (Cardano.selectInputs utxos amountLovelace).1
          = Cardano.sumLovelace (Cardano.selectInputs utxos amountLovelace).2
      ∧ (0 < amountLovelace + 3000000 →
          ∀ n < (Cardano.selectInputs utxos amountLovelace).2.length,
            Cardano.sumLovelace ((Cardano.selectInputs utxos amountLovelace).2.take n)
              < amountLovelace + 3000000)
      ∧ (amountLovelace + 3000000 ≤ Cardano.sumLovelace utxos →
          amountLovelace + 3000000 ≤ (Cardano.selectInputs utxos amountLovelace).1)
      ∧ (Cardano.sumLovelace utxos < amountLovelace + 3000000 →
          (Cardano.selectInputs utxos amountLovelace).2
            = utxos.filter fun u => u.lovelace.isSome))
    ∧ (List.Sublist (Cardano.selectInputs2 utxos amountLovelace).2 utxos
      ∧ (Cardano.selectInputs2 utxos amountLovelace).1
          = Cardano.sumLovelace (Cardano.selectInputs2 utxos amountLovelace).2
      ∧ (0 < amountLovelace + 2000000 →
          ∀ n < (Cardano.selectInputs2 utxos amountLovelace).2.length,
            Cardano.sumLovelace ((Cardano.selectInputs2 utxos amountLovelace).2.take n)
              < amountLovelace + 2000000)
      ∧ (amountLovelace + 2000000 ≤ Cardano.sumLovelace utxos →
          amountLovelace + 2000000 ≤ (Cardano.selectInputs2 utxos amountLovelace).1)
      ∧ (Cardano.sumLovelace utxos < amountLovelace + 2000000 →
          (Cardano.selectInputs2 utxos amountLovelace).2 = utxos)) := by
  constructor
  · have he := Cardano.selectInputs_eq utxos amountLovelace
    refine ⟨?_, ?_, ?_, ?_, ?_⟩
    · rw [he]
      exact Greedy.chosen_sublist Cardano.lovelaceVal _ 0 utxos
    · rw [he]
    · intro hpos n hn
      rw [he] at hn ⊢
      have := Greedy.chosen_take_lt Cardano.lovelaceVal (amountLovelace + 3000000) 0 utxos
        hpos n (by simpa using hn)
      rw [Cardano.sumVal_lovelaceVal] at this
      simpa using this
    · intro h
      rw [he]
      have := Greedy.chosen_sum_reaches Cardano.lovelaceVal (amountLovelace + 3000000) 0 utxos
        (by rw [Cardano.sumVal_lovelaceVal]; omega)
      rw [Cardano.sumVal_lovelaceVal] at this
      simpa using this
    · intro h
      rw [he]
      have hnn' : ∀ u ∈ utxos, 0 ≤ (Cardano.lovelaceVal u).getD 0 := by
        intro u hu
        simpa [Cardano.lovelaceVal] using hnn u hu
      have htot : 0 + Greedy.sumVal Cardano.lovelaceVal utxos < amountLovelace + 3000000 := by
        rw [Cardano.sumVal_lovelaceVal]; omega
      have hc := Greedy.chosen_of_total_lt Cardano.lovelaceVal (amountLovelace + 3000000) 0
        utxos hnn' htot
      simpa [Cardano.lovelaceVal] using hc
  · have he := Cardano.selectInputs2_eq utxos amountLovelace
    refine ⟨?_, ?_, ?_, ?_, ?_⟩
    · rw [he]
      exact Greedy.chosen_sublist Cardano.lovelaceValD _ 0 utxos
    · rw [he]
    · intro hpos n hn
      rw [he] at hn ⊢
      have := Greedy.chosen_take_lt Cardano.lovelaceValD (amountLovelace + 2000000) 0 utxos
        hpos n (by simpa using hn)
      rw [Cardano.sumVal_lovelaceValD] at this
      simpa using this
    · intro h
      rw [he]
      have := Greedy.chosen_sum_reaches Cardano.lovelaceValD (amountLovelace + 2000000) 0 utxos
        (by rw [Cardano.sumVal_lovelaceValD]; omega)
      rw [Cardano.sumVal_lovelaceValD] at this
      simpa using this
    · intro h
      rw [he]
      have hnn' : ∀ u ∈ utxos, 0 ≤ (Cardano.lovelaceValD u).getD 0 := by
        intro u hu
        simpa [Cardano.lovelaceValD] using hnn u hu
      have htot : 0 + Greedy.sumVal Cardano.lovelaceValD utxos < amountLovelace + 2000000 := by
        rw [Cardano.sumVal_lovelaceValD]; omega
      have hc := Greedy.chosen_of_total_lt Cardano.lovelaceValD (amountLovelace + 2000000) 0
        utxos hnn' htot
      simpa [Cardano.lovelaceValD] using hc

/-- Witness for C6 at the counterexample input: values are nonnegative,
selection runs in provider order, the returned total 5,000,000 is the sum
of the single chosen input and reaches the 4,000,000 target. -/
theorem cardano_selection_provider_order_witness :
    (∀ u ∈ ([⟨"h1", 0, some 5000000⟩, ⟨"h2", 0, some 2000000⟩] : List Cardano.CUtxo),
        0 ≤ u.lovelace.getD 0)
    ∧ (1000000 : Int) + 3000000
        ≤ (Cardano.selectInputs [⟨"h1", 0, some 5000000⟩, ⟨"h2", 0, some 2000000⟩] 1000000).1
    ∧ (Cardano.selectInputs [⟨"h1", 0, some 5000000⟩, ⟨"h2", 0, some 2000000⟩] 1000000).1
        = Cardano.sumLovelace
            (Cardano.selectInputs [⟨"h1", 0, some 5000000⟩, ⟨"h2", 0, some 2000000⟩] 1000000).2 :=
  ⟨by decide,
   ((cardano_selection_provider_order_spec
      [⟨"h1", 0, some 5000000⟩, ⟨"h2", 0, some 2000000⟩] 1000000
      (by decide)).1.2.2.2.1 (by decide)),
   (cardano_selection_provider_order_spec
      [⟨"h1", 0, some 5000000⟩, ⟨"h2", 0, some 2000000⟩] 1000000
      (by decide)).1.2.1⟩

end DexWallet
